import Mathlib

/-!
# Verification of the rulemanager Rule Generation & Validation Engine

Shallow embedding of the core of the `rulemanager` repository
(`internal/rules/service.go`, `internal/rules/pipelines.go`,
`internal/database` caching template provider) together with proofs of the
specification claims about it.

JSON documents (Go `map[string]interface{}` values produced by
`encoding/json.Unmarshal`) are modelled by the inductive type `Json`; objects
are association lists in document order (Go maps are unordered with unique
keys, so list equality of our deterministic constructions implies map
equality, and object well-formedness — no duplicate keys — is carried as a
hypothesis where a proof needs it).  JSON numbers (Go `float64`) are modelled
as integers: the claims under study only use numbers for (in)equality tests,
and JSON-decoded floats compare by value with no NaN, so `Int` with its
decidable equality is a faithful stand-in.  External collaborators (template
provider, rule store, schema validator, text/template renderer, HTTP step
runners) are abstracted as function-valued fields of an environment record,
exactly as the Go service receives them as interfaces.
-/

namespace Rulemanager

/-- A JSON value as produced by Go `encoding/json.Unmarshal` into
`map[string]interface{}` / `[]interface{}` / scalars.  Numbers are modelled
as `Int` (see the module comment). -/
inductive Json where
  | null : Json
  | bool : Bool → Json
  | num : Int → Json
  | str : String → Json
  | arr : List Json → Json
  | obj : List (String × Json) → Json
deriving Inhabited

/-- First binding of key `k` in an object's field list (Go map lookup;
Go-decoded objects have unique keys so "first" is "the" binding). -/
def lookupField (fields : List (String × Json)) (k : String) : Option Json :=
  match fields.find? (fun kv => kv.1 == k) with
  | some kv => some kv.2
  | none => none

/-- Go `v[part]` on a `map[string]interface{}`: a missing key yields the nil
interface value, modelled as `Json.null`. -/
def lookupOrNull (fields : List (String × Json)) (k : String) : Json :=
  match lookupField fields k with
  | some v => v
  | none => .null

/-- `strings.Split(path, ".")`, implemented structurally over the character
list so that concrete instances reduce by `decide`. -/
def splitDotAux : List Char → List Char → List String
  | [], acc => [String.mk acc.reverse]
  | c :: cs, acc =>
    if c == '.' then String.mk acc.reverse :: splitDotAux cs []
    else splitDotAux cs (c :: acc)

def splitDot (s : String) : List String :=
  splitDotAux s.toList []

/-- The loop body of `getValueByPath` (service.go): walk the remaining path
components from the current node.  On a map, descend by key (missing key
becomes the nil interface, i.e. `null`); on a non-empty array whose first
element is a map, descend into that first element by the same key; every
other combination makes the Go function return `("", false)`. -/
def walkPath : Json → List String → Option Json
  | cur, [] => some cur
  | cur, part :: rest =>
    match cur with
    | .obj fields => walkPath (lookupOrNull fields part) rest
    | .arr [] => none
    | .arr (first :: _) =>
      match first with
      | .obj fields => walkPath (lookupOrNull fields part) rest
      | _ => none
    | _ => none

/-- `getValueByPath` (service.go lines 460-490): extract a string value from
a parameter document using dot notation; `some s` corresponds to Go's
`(s, true)` (note Go returns `true` even for the empty string), `none` to
`("", false)`. -/
def getValueByPath (data : List (String × Json)) (path : String) : Option String :=
  match walkPath (.obj data) (splitDot path) with
  | some (.str s) => some s
  | _ => none

/-- A rule search filter (`database.RuleFilter`): a template name plus
field-path equality constraints.  The Go `map[string]string` of parameters is
modelled as an association list built with `insertEntry`, so later writes to
the same key overwrite; list equality of our deterministic constructions
implies equality of the Go maps. -/
structure RuleFilter where
  templateName : String
  parameters : List (String × String)
deriving Repr, DecidableEq, Inhabited

/-- Go map assignment `m[k] = v` on the association-list model: overwrite the
binding if `k` is present, otherwise append it. -/
def insertEntry (m : List (String × String)) (k v : String) : List (String × String) :=
  match m with
  | [] => [(k, v)]
  | (k', v') :: rest =>
    if k' == k then (k, v) :: rest
    else (k', v') :: insertEntry rest k v

/-- The filter entries contributed by one uniqueness key (the body of the
`for _, key := range uniquenessKeys` loop in `PlanRuleCreation` /
`PlanRuleUpdate`), as a list: for the literal key `"target"`, one entry
`("target."++field, value)` per string-valued immediate field of the
document's `target` object; for any other key, a single entry when the
dot-path walk ends at a non-empty string. -/
def keyContribution (paramsMap : List (String × Json)) (key : String) :
    List (String × String) :=
  if key == "target" then
    match lookupField paramsMap "target" with
    | some (.obj fields) =>
      fields.filterMap (fun kv =>
        match kv.2 with
        | .str s => some ("target." ++ kv.1, s)
        | _ => none)
    | _ => []
  else
    match getValueByPath paramsMap key with
    | some v => if v ≠ "" then [(key, v)] else []
    | none => []

/-- One iteration of the filter-construction loop, exactly as the Go code
mutates `filter.Parameters`. -/
def addFilterEntries (params : List (String × String))
    (paramsMap : List (String × Json)) (key : String) : List (String × String) :=
  if key == "target" then
    match lookupField paramsMap "target" with
    | some (.obj fields) =>
      fields.foldl (fun acc kv =>
        match kv.2 with
        | .str s => insertEntry acc ("target." ++ kv.1) s
        | _ => acc) params
    | _ => params
  else
    match getValueByPath paramsMap key with
    | some v => if v ≠ "" then insertEntry params key v else params
    | none => params

/-- Filter construction shared by `PlanRuleCreation` (lines 285-309) and
`PlanRuleUpdate` (lines 397-424): scoped to the template name, with the
parameter constraints accumulated over the uniqueness keys. -/
def buildFilter (templateName : String) (uniquenessKeys : List String)
    (paramsMap : List (String × Json)) : RuleFilter :=
  { templateName := templateName
    parameters := uniquenessKeys.foldl (fun acc key => addFilterEntries acc paramsMap key) [] }

/-- `uniquenessKeys` resolution: the schema's declared keys, defaulting to
`["target", "rules.rule_type"]` when the schema declares none. -/
def effectiveKeys (schemaKeys : List String) : List String :=
  if schemaKeys.isEmpty then ["target", "rules.rule_type"] else schemaKeys

/-- The slice of a schema document the planning code extracts
(`json.Unmarshal` into a struct holding `uniqueness_keys`); validation and
rendering treat the rest of the schema opaquely through the environment. -/
structure Schema where
  uniquenessKeys : List String

/-- `database.Rule`: a persisted rule record (timestamps are irrelevant to
the claims and omitted). -/
structure Rule where
  id : String
  templateName : String
  parameters : Json

/-- The `Action` field of a `RulePlan`. -/
inductive PlanAction where
  | create
  | update
  | conflict
deriving DecidableEq, Repr

/-- `rules.RulePlan`: the result of a planning operation. -/
structure RulePlan where
  action : PlanAction
  reason : String
  existingRule : Option Rule
  newRule : Rule

/-- External collaborators of `rules.Service`, as the Go service receives
them through interfaces: template provider, schema validator, template
renderer (text/template execution) and rule store. -/
structure ServiceEnv where
  getSchema : String → Except String Schema
  getTemplate : String → Except String String
  validate : Schema → Json → Except String Unit
  render : String → Json → Except String String
  searchRules : RuleFilter → Except String (List Rule)
  getRule : String → Except String Rule

/-- `fmt.Errorf("%s: %w", ...)`-style error wrapping. -/
def wrapErr (msg : String) : Except String α → Except String α
  | .ok a => .ok a
  | .error e => .error (msg ++ e)

/-- `json.Unmarshal` of a document into `map[string]interface{}`: succeeds
exactly when the document is a JSON object. -/
def asObj (j : Json) (msg : String) : Except String (List (String × Json)) :=
  match j with
  | .obj fields => .ok fields
  | _ => .error msg

/-- Separator-joined concatenation used to model Go `fmt.Sprintf("%v", keys)`
on a `[]string`, which prints `[k1 k2 ...]`. -/
def joinSpace : List String → String
  | [] => ""
  | [x] => x
  | x :: xs => x ++ " " ++ joinSpace xs

def goKeysFmt (keys : List String) : String :=
  "[" ++ joinSpace keys ++ "]"

/-- `Service.GenerateRule`: fetch the schema, validate, fetch the template,
render. -/
def GenerateRule (env : ServiceEnv) (templateName : String) (parameters : Json) :
    Except String String := do
  let schema ← env.getSchema templateName
  let _ ← env.validate schema parameters
  let tmplStr ← env.getTemplate templateName
  env.render tmplStr parameters

/-- `Service.PlanRuleCreation` (service.go lines 254-338). -/
def PlanRuleCreation (env : ServiceEnv) (templateName : String) (parameters : Json) :
    Except String RulePlan := do
  let schema ← wrapErr "failed to get schema: " (env.getSchema templateName)
  let _ ← wrapErr "validation failed: " (env.validate schema parameters)
  let paramsMap ← asObj parameters "failed to parse parameters"
  let uniquenessKeys := effectiveKeys schema.uniquenessKeys
  let filter := buildFilter templateName uniquenessKeys paramsMap
  let existingRules ← wrapErr "failed to search for existing rules: " (env.searchRules filter)
  let newRule : Rule := { id := "", templateName := templateName, parameters := parameters }
  match existingRules with
  | existing :: _ =>
    .ok { action := .update
          reason := "Rule with same uniqueness constraints (" ++ goKeysFmt uniquenessKeys
                      ++ ") already exists"
          existingRule := some existing
          newRule := newRule }
  | [] =>
    .ok { action := .create
          reason := "No existing rule found with these constraints"
          existingRule := none
          newRule := newRule }

mutual

/-- Modelled from the spec: the deep-merge kernel invoked by `PlanRuleUpdate`
as `mergo.Merge(&existingParams, newParams, mergo.WithOverride)` lives in the
external library `dario.cat/mergo`, whose source is not part of this
repository; following the spec's description, object fields merge recursively
key-by-key and every other value from the new (source) document replaces the
existing (destination) value wholesale. -/
def deepMerge : Json → Json → Json
  | .obj dst, .obj src => .obj (mergeFields dst src)
  | _, src => src
termination_by _ src => (sizeOf src, 0)

/-- Merge each field of the source object into the destination field list in
order. -/
def mergeFields : List (String × Json) → List (String × Json) → List (String × Json)
  | dst, [] => dst
  | dst, (k, v) :: rest => mergeFields (mergeField dst k v) rest
termination_by dst src => (sizeOf src, 1 + sizeOf dst)

/-- Merge a single source binding into the destination field list: if the key
is present, merge into its value, otherwise append the binding. -/
def mergeField : List (String × Json) → String → Json → List (String × Json)
  | [], k, v => [(k, v)]
  | (k', v') :: dst, k, v =>
    if k' == k then (k', deepMerge v' v) :: dst
    else (k', v') :: mergeField dst k v
termination_by dst _ v => (sizeOf v, sizeOf dst)

end

/-- Step 2 of `PlanRuleUpdate` (service.go lines 348-372): with a non-empty
new parameter document, parse both documents and deep-merge the new one over
the existing one; with an empty (`len(parameters) == 0`) document, keep the
existing parameters unchanged. -/
def mergedParameters (existingParams : Json) (parameters : Option Json) :
    Except String Json :=
  match parameters with
  | some newParams => do
    let _ ← asObj existingParams "failed to parse existing rule parameters"
    let _ ← asObj newParams "invalid parameters JSON"
    .ok (deepMerge existingParams newParams)
  | none => .ok existingParams

/-- `Service.PlanRuleUpdate` (service.go lines 341-458).  The raw request
body is `none` when Go sees `len(parameters) == 0`. -/
def PlanRuleUpdate (env : ServiceEnv) (id templateName : String)
    (parameters : Option Json) : Except String RulePlan := do
  let existingRule ← wrapErr "failed to get existing rule: " (env.getRule id)
  let finalParams ← mergedParameters existingRule.parameters parameters
  let schema ← wrapErr "failed to get schema: " (env.getSchema templateName)
  let _ ← wrapErr "validation failed: " (env.validate schema finalParams)
  let uniquenessKeys := effectiveKeys schema.uniquenessKeys
  let paramsMap ← asObj finalParams "failed to parse final parameters"
  let filter := buildFilter templateName uniquenessKeys paramsMap
  let existingRules ← wrapErr "failed to search for existing rules: " (env.searchRules filter)
  let newRule : Rule := { id := id, templateName := templateName, parameters := finalParams }
  match existingRules.find? (fun r => r.id != id) with
  | some other =>
    .ok { action := .conflict
          reason := "Rule with same uniqueness constraints (" ++ goKeysFmt uniquenessKeys
                      ++ ") already exists (ID: " ++ other.id ++ ")"
          existingRule := some other
          newRule := newRule }
  | none =>
    .ok { action := .update
          reason := "No conflict found"
          existingRule := none
          newRule := newRule }

/-! ## Aggregator (`Service.GenerateVMAlertConfig`, service.go lines 176-207) -/

/-- `groups[name] = append(groups[name], content)`: the Go map from template
name to rendered bodies, modelled as an association list in first-insertion
order (a deterministic refinement: the Go map is unordered, and no claim
depends on group order). -/
def appendGroup (groups : List (String × List String)) (name content : String) :
    List (String × List String) :=
  match groups with
  | [] => [(name, [content])]
  | (n, cs) :: rest =>
    if n == name then (n, cs ++ [content]) :: rest
    else (n, cs) :: appendGroup rest name content

/-- The grouping loop of `GenerateVMAlertConfig`: render every record,
skipping (with a logged warning, invisible here) each record whose
`GenerateRule` fails. -/
def collectGroups (env : ServiceEnv) (rules : List Rule) : List (String × List String) :=
  rules.foldl (fun gs r =>
    match GenerateRule env r.templateName r.parameters with
    | .ok content => appendGroup gs r.templateName content
    | .error _ => gs) []

/-- Whitespace as recognised by Go `strings.TrimSpace` (`unicode.IsSpace`),
restricted to the Latin-1 range; rarer Unicode space runes are not modelled
(no claim involves them). -/
def goIsSpace (c : Char) : Bool :=
  c == ' ' || c == '\t' || c == '\n' || c == '\x0b' || c == '\x0c' || c == '\r' ||
    c == '\u0085' || c == '\u00A0'

/-- `strings.Split(s, "\n")`, structurally over the character list. -/
def splitLinesAux : List Char → List Char → List String
  | [], acc => [String.mk acc.reverse]
  | c :: cs, acc =>
    if c == '\n' then String.mk acc.reverse :: splitLinesAux cs []
    else splitLinesAux cs (c :: acc)

def splitLines (s : String) : List String :=
  splitLinesAux s.toList []

/-- `strings.TrimSpace(line) == ""`. -/
def isBlank (line : String) : Bool :=
  line.toList.all goIsSpace

/-- The inner loop of `GenerateVMAlertConfig` over one rendered rule body:
split into lines, drop whitespace-only lines, prefix each remaining line with
six spaces and a trailing newline. -/
def indentRuleBody (content : String) : String :=
  (splitLines content).foldl
    (fun buf line => if isBlank line then buf else buf ++ "      " ++ line ++ "\n") ""

/-- One group of the aggregate document: header lines followed by the
indented bodies in record order. -/
def renderGroup (name : String) (contents : List String) : String :=
  "  - name: " ++ name ++ "\n" ++ "    rules:\n" ++
    contents.foldl (fun buf c => buf ++ indentRuleBody c) ""

/-- `Service.GenerateVMAlertConfig`: always returns `ok`; per-record render
failures only affect which records contribute to the groups. -/
def GenerateVMAlertConfig (env : ServiceEnv) (rules : List Rule) : Except String String :=
  let groups := collectGroups env rules
  .ok ("groups:\n" ++ groups.foldl (fun buf g => buf ++ renderGroup g.1 g.2) "")

/-! ## Pipeline processor (`pipelines.go`, the typed-condition revision the
spec describes: `PipelineCondition` carries optional string/bool/number
values) -/

/-- `rules.PipelineCondition`. -/
structure PipelineCondition where
  property : String
  stringValue : Option String
  boolValue : Option Bool
  numberValue : Option Int

/-- `rules.PipelineStep`; `parameters` is the raw JSON passed to the step
runner. -/
structure PipelineStep where
  name : String
  type : String
  condition : Option PipelineCondition
  parameters : Json

/-- `rules.DatasourceConfig`. -/
structure DatasourceConfig where
  sourceType : String
  url : String

/-- A registered `rules.StepRunner`: its `Run` method, taking the datasource,
the rule parameters and the step parameters. -/
abbrev StepRunner := Option DatasourceConfig → Json → Json → Except String Unit

/-- `PipelineProcessor.evaluateCondition` (pipelines.go lines 288-325):
unmarshal the rule parameters (failure yields `false`), look up the
condition's property, then compare against whichever of the three typed
values is set, checking `string_value` first, then `bool_value`, then
`number_value`; a type mismatch or an unset condition yields `false`. -/
def evaluateCondition (condition : PipelineCondition) (ruleParams : Json) : Bool :=
  match ruleParams with
  | .obj params =>
    match lookupField params condition.property with
    | none => false
    | some val =>
      match condition.stringValue with
      | some s => (match val with | .str sv => sv == s | _ => false)
      | none =>
        match condition.boolValue with
        | some b => (match val with | .bool bv => bv == b | _ => false)
        | none =>
          match condition.numberValue with
          | some n => (match val with | .num nv => nv == n | _ => false)
          | none => false
  | _ => false

/-- The condition gate at the top of the `Execute` loop: a step with no
condition always passes. -/
def conditionPasses (step : PipelineStep) (ruleParams : Json) : Bool :=
  match step.condition with
  | some c => evaluateCondition c ruleParams
  | none => true

/-- `p.runners[step.Type]` lookup in the runner registry. -/
def findRunner (runners : List (String × StepRunner)) (stepType : String) :
    Option StepRunner :=
  match runners.find? (fun kv => kv.1 == stepType) with
  | some kv => some kv.2
  | none => none

/-- Dispatch-and-run of a single step (the body of the `Execute` loop after
the condition gate): an unregistered type is an "unknown pipeline step type"
error; a runner failure is wrapped with the step's name. -/
def runStep (runners : List (String × StepRunner)) (datasource : Option DatasourceConfig)
    (ruleParams : Json) (step : PipelineStep) : Except String Unit :=
  match findRunner runners step.type with
  | none => .error ("unknown pipeline step type: " ++ step.type)
  | some runner =>
    match runner datasource ruleParams step.parameters with
    | .error e => .error ("pipeline step \x27" ++ step.name ++ "\x27 failed: " ++ e)
    | .ok _ => .ok ()

/-- `PipelineProcessor.Execute` (pipelines.go lines 264-286). -/
def Execute (runners : List (String × StepRunner)) (datasource : Option DatasourceConfig) :
    List PipelineStep → Json → Except String Unit
  | [], _ => .ok ()
  | step :: rest, ruleParams =>
    if conditionPasses step ruleParams then
      match runStep runners datasource ruleParams step with
      | .error e => .error e
      | .ok _ => Execute runners datasource rest ruleParams
    else
      Execute runners datasource rest ruleParams

/-! ## Caching template provider (`database.CachingTemplateProvider`) -/

/-- Sequential state of the caching template provider for schemas: the
underlying store's contents and the cache (`sync.Map`) contents, both as
string maps. -/
structure ProviderState where
  store : List (String × String)
  cache : List (String × String)

/-- Map lookup on the string-map model. -/
def mapFind (m : List (String × String)) (k : String) : Option String :=
  match m.find? (fun kv => kv.1 == k) with
  | some kv => some kv.2
  | none => none

/-- Map write (overwrite-or-append). -/
def mapSet (m : List (String × String)) (k v : String) : List (String × String) :=
  insertEntry m k v

/-- Map deletion. -/
def mapErase (m : List (String × String)) (k : String) : List (String × String) :=
  m.filter (fun kv => kv.1 != k)

/-- `CachingTemplateProvider.GetSchema`: serve from the cache when present;
otherwise read through to the underlying store and cache the result.  The
underlying provider's `GetSchema` is a store lookup (both `FileStore` and
`MongoStore` return the stored content or a not-found error). -/
def cachedGetSchema (s : ProviderState) (name : String) :
    Except String String × ProviderState :=
  match mapFind s.cache name with
  | some v => (.ok v, s)
  | none =>
    match mapFind s.store name with
    | some v => (.ok v, { s with cache := mapSet s.cache name v })
    | none => (.error ("schema not found: " ++ name), s)

/-- `CachingTemplateProvider.InvalidateSchema`. -/
def invalidateSchema (s : ProviderState) (name : String) : ProviderState :=
  { s with cache := mapErase s.cache name }

/-- `CachingTemplateProvider.CreateSchema`: invalidate the cache entry first,
then write through to the underlying store (both store implementations upsert
the named schema). -/
def cachedCreateSchema (s : ProviderState) (name content : String) : ProviderState :=
  let s1 := invalidateSchema s name
  { s1 with store := mapSet s1.store name content }

/-- `CachingTemplateProvider.DeleteSchema`: invalidate the cache entry first,
then delete from the underlying store. -/
def cachedDeleteSchema (s : ProviderState) (name : String) : ProviderState :=
  let s1 := invalidateSchema s name
  { s1 with store := mapErase s1.store name }

/-! ## Theorems -/

/-- Environment used to instantiate hypotheses of the plan theorems on
concrete inputs: one schema with no declared uniqueness keys, validation
always succeeding, and a store holding a single searchable record. -/
def sampleRule : Rule :=
  { id := "r1", templateName := "k8s", parameters := .obj [] }

def sampleEnv (searchResult : List Rule) : ServiceEnv :=
  { getSchema := fun _ => .ok { uniquenessKeys := [] }
    getTemplate := fun _ => .error "not used"
    validate := fun _ _ => .ok ()
    render := fun _ _ => .error "not used"
    searchRules := fun _ => .ok searchResult
    getRule := fun name => if name == "r1" then .ok sampleRule else .error "not found" }

/-- C1.  For every candidate submission whose parameters validate against the
schema, `PlanRuleCreation` uses the schema's `uniqueness_keys` (defaulting to
`["target", "rules.rule_type"]` when the schema declares none) to build a
filter scoped to the template name, and returns action `update` with the
first matching existing record when the search returns at least one match,
and action `create` with no existing record when the search returns none. -/
theorem planRuleCreation_create_or_update (env : ServiceEnv) (t : String)
    (p : Json) (schema : Schema) (pm : List (String × Json)) (rs : List Rule)
    (hs : env.getSchema t = .ok schema)
    (hv : env.validate schema p = .ok ())
    (hp : p = .obj pm)
    (hr : env.searchRules (buildFilter t (effectiveKeys schema.uniquenessKeys) pm) = .ok rs) :
    (buildFilter t (effectiveKeys schema.uniquenessKeys) pm).templateName = t ∧
    PlanRuleCreation env t p = .ok
      { action := if rs.isEmpty then .create else .update
        reason :=
          if rs.isEmpty then "No existing rule found with these constraints"
          else "Rule with same uniqueness constraints ("
                 ++ goKeysFmt (effectiveKeys schema.uniquenessKeys) ++ ") already exists"
        existingRule := rs.head?
        newRule := { id := "", templateName := t, parameters := p } } := by
  subst hp
  refine ⟨rfl, ?_⟩
  cases rs with
  | nil =>
    simp [PlanRuleCreation, hs, hv, hr, wrapErr, asObj, Bind.bind, Except.bind]
  | cons e es =>
    simp [PlanRuleCreation, hs, hv, hr, wrapErr, asObj, Bind.bind, Except.bind]

/-- Witness for C1: with an empty store the plan is `create`; with one
matching record it is `update` against that record. -/
theorem planRuleCreation_create_or_update_witness :
    PlanRuleCreation (sampleEnv []) "k8s" (.obj []) = .ok
      { action := .create
        reason := "No existing rule found with these constraints"
        existingRule := none
        newRule := { id := "", templateName := "k8s", parameters := .obj [] } } ∧
    PlanRuleCreation (sampleEnv [sampleRule]) "k8s" (.obj []) = .ok
      { action := .update
        reason := "Rule with same uniqueness constraints ([target rules.rule_type]) already exists"
        existingRule := some sampleRule
        newRule := { id := "", templateName := "k8s", parameters := .obj [] } } := by
  constructor
  · have h := planRuleCreation_create_or_update (sampleEnv []) "k8s" (.obj [])
      { uniquenessKeys := [] } [] [] rfl rfl rfl rfl
    simpa using h.2
  · have h := planRuleCreation_create_or_update (sampleEnv [sampleRule]) "k8s" (.obj [])
      { uniquenessKeys := [] } [] [sampleRule] rfl rfl rfl rfl
    simpa [effectiveKeys, goKeysFmt, joinSpace] using h.2

/-- C2.  For every update plan over an existing record id, `PlanRuleUpdate`
returns action `conflict` referencing the other record exactly when the
uniqueness-filter search returns some record whose id differs from the
record being updated, and returns action `update` when every returned match
is the record itself or there are no matches. -/
theorem planRuleUpdate_conflict_or_update (env : ServiceEnv) (id t : String)
    (ps : Option Json) (r : Rule) (fp : Json) (schema : Schema)
    (pm : List (String × Json)) (rs : List Rule)
    (hg : env.getRule id = .ok r)
    (hm : mergedParameters r.parameters ps = .ok fp)
    (hs : env.getSchema t = .ok schema)
    (hv : env.validate schema fp = .ok ())
    (hp : fp = .obj pm)
    (hr : env.searchRules (buildFilter t (effectiveKeys schema.uniquenessKeys) pm) = .ok rs) :
    ((∃ x ∈ rs, x.id ≠ id) →
      ∃ other, rs.find? (fun x => x.id != id) = some other ∧
        PlanRuleUpdate env id t ps = .ok
          { action := .conflict
            reason := "Rule with same uniqueness constraints ("
                        ++ goKeysFmt (effectiveKeys schema.uniquenessKeys)
                        ++ ") already exists (ID: " ++ other.id ++ ")"
            existingRule := some other
            newRule := { id := id, templateName := t, parameters := fp } }) ∧
    ((∀ x ∈ rs, x.id = id) →
      PlanRuleUpdate env id t ps = .ok
        { action := .update
          reason := "No conflict found"
          existingRule := none
          newRule := { id := id, templateName := t, parameters := fp } }) := by
  subst hp
  constructor
  · intro hex
    have hsome : (rs.find? (fun x => x.id != id)).isSome := by
      rw [List.find?_isSome]
      obtain ⟨x, hx, hne⟩ := hex
      exact ⟨x, hx, by simpa using hne⟩
    obtain ⟨other, hother⟩ := Option.isSome_iff_exists.mp hsome
    refine ⟨other, hother, ?_⟩
    simp [PlanRuleUpdate, hg, hm, hs, hv, hr, hother, wrapErr, asObj, Bind.bind, Except.bind]
  · intro hall
    have hnone : rs.find? (fun x => x.id != id) = none := by
      rw [List.find?_eq_none]
      intro x hx
      simpa using hall x hx
    simp [PlanRuleUpdate, hg, hm, hs, hv, hr, hnone, wrapErr, asObj, Bind.bind, Except.bind]

/-- Witness for C2: updating against a store returning a different record B
yields `conflict` referencing B; a store returning only the record itself
yields `update`. -/
theorem planRuleUpdate_conflict_or_update_witness :
    PlanRuleUpdate (sampleEnv [{ id := "r2", templateName := "k8s", parameters := .obj [] }])
        "r1" "k8s" none = .ok
      { action := .conflict
        reason := "Rule with same uniqueness constraints ([target rules.rule_type]) already exists (ID: r2)"
        existingRule := some { id := "r2", templateName := "k8s", parameters := .obj [] }
        newRule := { id := "r1", templateName := "k8s", parameters := .obj [] } } ∧
    PlanRuleUpdate (sampleEnv [sampleRule]) "r1" "k8s" none = .ok
      { action := .update
        reason := "No conflict found"
        existingRule := none
        newRule := { id := "r1", templateName := "k8s", parameters := .obj [] } } := by
  constructor
  · have h := planRuleUpdate_conflict_or_update
      (sampleEnv [{ id := "r2", templateName := "k8s", parameters := .obj [] }])
      "r1" "k8s" none sampleRule (.obj []) { uniquenessKeys := [] } []
      [{ id := "r2", templateName := "k8s", parameters := .obj [] }]
      rfl rfl rfl rfl rfl rfl
    have hex : ∃ x ∈ [({ id := "r2", templateName := "k8s", parameters := .obj [] } : Rule)],
        x.id ≠ "r1" := ⟨_, List.mem_singleton_self _, by decide⟩
    obtain ⟨other, hfind, hplan⟩ := h.1 hex
    have : { id := "r2", templateName := "k8s", parameters := .obj [] } = other := by
      simpa [List.find?] using hfind
    subst this
    simpa [effectiveKeys, goKeysFmt, joinSpace] using hplan
  · have h := planRuleUpdate_conflict_or_update (sampleEnv [sampleRule]) "r1" "k8s" none
      sampleRule (.obj []) { uniquenessKeys := [] } [] [sampleRule] rfl rfl rfl rfl rfl rfl
    refine h.2 ?_
    intro x hx
    have : x = sampleRule := by simpa using hx
    subst this
    rfl

theorem lookupField_cons (k0 : String) (v0 : Json) (rest : List (String × Json))
    (k : String) :
    lookupField ((k0, v0) :: rest) k = if k0 == k then some v0 else lookupField rest k := by
  cases h : k0 == k <;> simp [lookupField, List.find?, h]

theorem lookupField_eq_none_of_not_mem (fields : List (String × Json)) (k : String)
    (h : k ∉ fields.map Prod.fst) : lookupField fields k = none := by
  induction fields with
  | nil => rfl
  | cons kv rest ih =>
    obtain ⟨k0, v0⟩ := kv
    simp only [List.map_cons, List.mem_cons] at h
    push_neg at h
    have hb : (k0 == k) = false := beq_eq_false_iff_ne.mpr (fun hh => h.1 hh.symm)
    rw [lookupField_cons, hb]
    simpa using ih h.2

theorem lookupField_mergeField_self (dst : List (String × Json)) (k : String) (v : Json) :
    lookupField (mergeField dst k v) k =
      some (match lookupField dst k with
            | some dv => deepMerge dv v
            | none => v) := by
  induction dst with
  | nil => simp [mergeField, lookupField, List.find?]
  | cons kv rest ih =>
    obtain ⟨k0, v0⟩ := kv
    by_cases hk : k0 = k
    · subst hk
      simp [mergeField, lookupField_cons]
    · have hb : (k0 == k) = false := beq_eq_false_iff_ne.mpr hk
      simp [mergeField, hb, lookupField_cons, ih]

theorem lookupField_mergeField_ne (dst : List (String × Json)) (k : String) (v : Json)
    (kk : String) (h : (kk == k) = false) :
    lookupField (mergeField dst k v) kk = lookupField dst kk := by
  have hne : kk ≠ k := beq_eq_false_iff_ne.mp h
  induction dst with
  | nil =>
    have hb : (k == kk) = false := beq_eq_false_iff_ne.mpr (Ne.symm hne)
    simp [mergeField, lookupField, List.find?, hb]
  | cons kv rest ih =>
    obtain ⟨k0, v0⟩ := kv
    by_cases hk : k0 = k
    · subst hk
      have hb : (k0 == kk) = false := beq_eq_false_iff_ne.mpr (Ne.symm hne)
      simp [mergeField, lookupField_cons, hb]
    · have hb : (k0 == k) = false := beq_eq_false_iff_ne.mpr hk
      simp [mergeField, hb, lookupField_cons, ih]

theorem lookupField_mergeFields (dst src : List (String × Json)) (k : String)
    (h : (src.map Prod.fst).Nodup) :
    lookupField (mergeFields dst src) k =
      match lookupField src k with
      | some sv =>
        some (match lookupField dst k with
              | some dv => deepMerge dv sv
              | none => sv)
      | none => lookupField dst k := by
  induction src generalizing dst with
  | nil => simp [mergeFields, lookupField, List.find?]
  | cons kv rest ih =>
    obtain ⟨k0, v0⟩ := kv
    simp only [List.map_cons, List.nodup_cons] at h
    rw [mergeFields, ih _ h.2, lookupField_cons]
    by_cases hk : k0 = k
    · subst hk
      have hnone : lookupField rest k0 = none := lookupField_eq_none_of_not_mem _ _ h.1
      simp [hnone, lookupField_mergeField_self]
    · have hb : (k0 == k) = false := beq_eq_false_iff_ne.mpr hk
      have hb2 : (k == k0) = false := beq_eq_false_iff_ne.mpr (Ne.symm hk)
      simp [hb, lookupField_mergeField_ne dst k0 v0 k hb2]

/-- Whether a JSON value is an object (only object/object pairs merge
recursively). -/
def isObj : Json → Bool
  | .obj _ => true
  | _ => false

theorem deepMerge_src_not_obj (dst src : Json) (h : isObj src = false) :
    deepMerge dst src = src := by
  cases src <;> cases dst <;> simp_all [deepMerge, isObj]

theorem deepMerge_dst_not_obj (dst src : Json) (h : isObj dst = false) :
    deepMerge dst src = src := by
  cases src <;> cases dst <;> simp_all [deepMerge, isObj]

/-- C4.  For every existing record and every non-empty new parameter
document, `PlanRuleUpdate` computes the merged document by deep-merging the
new document over the existing one: object fields merge recursively
key-by-key, while arrays and scalars from the new document replace the
existing values wholesale (never merged element-wise); when the new document
is empty, the existing parameters are used unchanged.  (The merge kernel is
the external `mergo` library with override semantics, modelled by
`deepMerge`; `Nodup` reflects that Go-decoded objects have unique keys.) -/
theorem planRuleUpdate_deep_merge :
    (∀ exf npf, mergedParameters (.obj exf) (some (.obj npf)) =
        .ok (deepMerge (.obj exf) (.obj npf))) ∧
    (∀ exJ, mergedParameters exJ none = .ok exJ) ∧
    (∀ env id t ps r plan, env.getRule id = .ok r →
        PlanRuleUpdate env id t ps = .ok plan →
        mergedParameters r.parameters ps = .ok plan.newRule.parameters) ∧
    (∀ dst src k, (src.map Prod.fst).Nodup →
        lookupField (mergeFields dst src) k =
          match lookupField src k with
          | some sv =>
            some (match lookupField dst k with
                  | some dv => deepMerge dv sv
                  | none => sv)
          | none => lookupField dst k) ∧
    (∀ dst src, isObj src = false → deepMerge dst src = src) ∧
    (∀ dst src, isObj dst = false → deepMerge dst src = src) := by
  refine ⟨?_, ?_, ?_, lookupField_mergeFields, deepMerge_src_not_obj, deepMerge_dst_not_obj⟩
  · intro exf npf
    rfl
  · intro exJ
    rfl
  · intro env id t ps r plan hg hplan
    simp only [PlanRuleUpdate, hg, wrapErr, Bind.bind, Except.bind] at hplan
    cases hm : mergedParameters r.parameters ps with
    | error e => rw [hm] at hplan; simp at hplan
    | ok fp =>
      rw [hm] at hplan
      simp only at hplan
      cases hs : env.getSchema t with
      | error e => rw [hs] at hplan; simp at hplan
      | ok schema =>
        rw [hs] at hplan
        simp only at hplan
        cases hv : env.validate schema fp with
        | error e => rw [hv] at hplan; simp at hplan
        | ok u =>
          rw [hv] at hplan
          simp only at hplan
          cases hpm : asObj fp "failed to parse final parameters" with
          | error e => rw [hpm] at hplan; simp at hplan
          | ok pm =>
            rw [hpm] at hplan
            simp only at hplan
            cases hr : env.searchRules
                (buildFilter t (effectiveKeys schema.uniquenessKeys) pm) with
            | error e => rw [hr] at hplan; simp at hplan
            | ok rs =>
              rw [hr] at hplan
              simp only at hplan
              cases hfind : rs.find? (fun x => x.id != id) with
              | some other =>
                rw [hfind] at hplan
                simp only [Except.ok.injEq] at hplan
                rw [← hplan]
              | none =>
                rw [hfind] at hplan
                simp only [Except.ok.injEq] at hplan
                rw [← hplan]

/-- Witness for C4: a concrete merge where a shared object field merges
recursively while a shared array field is replaced wholesale. -/
theorem planRuleUpdate_deep_merge_witness :
    mergedParameters (.obj [("a", .num 1), ("b", .obj [("c", .num 2)])])
        (some (.obj [("b", .obj [("d", .num 3)]), ("e", .num 4)])) =
      .ok (.obj [("a", .num 1), ("b", .obj [("c", .num 2), ("d", .num 3)]), ("e", .num 4)]) ∧
    lookupField (mergeFields [("x", .arr [.num 1, .num 2])] [("x", .arr [.num 9])]) "x" =
      some (.arr [.num 9]) := by
  constructor
  · have h := planRuleUpdate_deep_merge.1 [("a", .num 1), ("b", .obj [("c", .num 2)])]
      [("b", .obj [("d", .num 3)]), ("e", .num 4)]
    rw [h]
    simp [deepMerge, mergeFields, mergeField]
  · have h := planRuleUpdate_deep_merge.2.2.2.1 [("x", .arr [.num 1, .num 2])]
      [("x", .arr [.num 9])] "x" (by simp)
    rw [h]
    have h5 := planRuleUpdate_deep_merge.2.2.2.2.1 (.arr [.num 1, .num 2]) (.arr [.num 9]) rfl
    simp [lookupField, List.find?, h5]

/-! ### Filter construction (C3, C9) -/

mutual

/-- The target expansion as claim C3 reads ("one filter entry per leaf
string field nested under the target object"): collect every string leaf at
any depth below the given dot-path. -/
def leafStringEntries : String → Json → List (String × String)
  | path, .str s => [(path, s)]
  | path, .obj fields => leafFieldsEntries path fields
  | _, _ => []
termination_by _ j => sizeOf j

def leafFieldsEntries : String → List (String × Json) → List (String × String)
  | _, [] => []
  | path, (k, v) :: rest =>
    leafStringEntries (path ++ "." ++ k) v ++ leafFieldsEntries path rest
termination_by _ fields => sizeOf fields

end

theorem insertEntry_eq_append (m : List (String × String)) (k v : String)
    (h : k ∉ m.map Prod.fst) : insertEntry m k v = m ++ [(k, v)] := by
  induction m with
  | nil => rfl
  | cons kv rest ih =>
    obtain ⟨k0, v0⟩ := kv
    simp only [List.map_cons, List.mem_cons] at h
    push_neg at h
    have hb : (k0 == k) = false := beq_eq_false_iff_ne.mpr (fun hh => h.1 hh.symm)
    simp [insertEntry, hb, ih h.2]

theorem foldl_insertEntry_eq_append (l params : List (String × String))
    (hdisj : ∀ kv ∈ l, kv.1 ∉ params.map Prod.fst)
    (hnodup : (l.map Prod.fst).Nodup) :
    l.foldl (fun acc kv => insertEntry acc kv.1 kv.2) params = params ++ l := by
  induction l generalizing params with
  | nil => simp
  | cons kv rest ih =>
    obtain ⟨k0, v0⟩ := kv
    simp only [List.map_cons, List.nodup_cons] at hnodup
    rw [List.foldl_cons,
      insertEntry_eq_append params k0 v0 (hdisj (k0, v0) (List.mem_cons_self _ _)),
      ih (params ++ [(k0, v0)]) ?_ hnodup.2]
    · simp
    · intro kv2 hkv2
      simp only [List.map_append, List.mem_append]
      push_neg
      refine ⟨hdisj kv2 (List.mem_cons_of_mem _ hkv2), ?_⟩
      simp only [List.map_cons, List.map_nil, List.mem_singleton]
      intro hkk
      exact hnodup.1 (hkk ▸ List.mem_map_of_mem Prod.fst hkv2)

theorem target_foldl_filterMap (fields : List (String × Json))
    (params : List (String × String)) :
    fields.foldl (fun acc kv =>
        match kv.2 with
        | Json.str s => insertEntry acc ("target." ++ kv.1) s
        | _ => acc) params =
      (fields.filterMap (fun kv =>
        match kv.2 with
        | Json.str s => some ("target." ++ kv.1, s)
        | _ => none)).foldl (fun acc kv => insertEntry acc kv.1 kv.2) params := by
  induction fields generalizing params with
  | nil => rfl
  | cons kv rest ih =>
    obtain ⟨k0, v0⟩ := kv
    cases v0 <;> simp [List.filterMap_cons, List.foldl_cons, ih]

theorem addFilterEntries_eq_foldl (params : List (String × String))
    (pm : List (String × Json)) (key : String) :
    addFilterEntries params pm key =
      (keyContribution pm key).foldl (fun acc kv => insertEntry acc kv.1 kv.2) params := by
  cases hkey : (key == "target") with
  | false =>
    simp only [addFilterEntries, keyContribution, hkey, Bool.false_eq_true, if_false]
    cases hv : getValueByPath pm key with
    | none => rfl
    | some v =>
      by_cases hve : v = ""
      · subst hve; simp
      · simp [hve]
  | true =>
    simp only [addFilterEntries, keyContribution, hkey, if_true]
    cases hl : lookupField pm "target" with
    | none => rfl
    | some j => cases j <;> simp [target_foldl_filterMap]

theorem buildFilter_foldl (U : List String) (pm : List (String × Json))
    (params : List (String × String)) :
    U.foldl (fun acc key => addFilterEntries acc pm key) params =
      ((U.map (keyContribution pm)).flatten).foldl
        (fun acc kv => insertEntry acc kv.1 kv.2) params := by
  induction U generalizing params with
  | nil => rfl
  | cons key rest ih =>
    rw [List.foldl_cons, ih, addFilterEntries_eq_foldl]
    simp [List.foldl_append]

/-- Counterexample to C3 as stated: for the document whose `target` object
holds one nested object `{a: {b: "c"}}`, there is exactly one leaf string
field nested under `target` (at `target.a.b`), yet the code contributes no
filter entry at all for the `target` key — only immediate string-valued
fields of `target` are expanded. -/
theorem planFilter_nested_target_counterexample :
    keyContribution [("target", .obj [("a", .obj [("b", .str "c")])])] "target" = [] ∧
    buildFilter "t" ["target"] [("target", .obj [("a", .obj [("b", .str "c")])])] =
      { templateName := "t", parameters := [] } ∧
    leafStringEntries "target" (.obj [("a", .obj [("b", .str "c")])]) =
      [("target.a.b", "c")] := by
  refine ⟨rfl, rfl, ?_⟩
  simp [leafStringEntries, leafFieldsEntries]

/-- C3 (amended).  For every parameter document, the plan search filter is
built as follows: for the literal uniqueness key `"target"`, one filter entry
is added per immediate string-valued field of the document's target object
(nested objects below `target` are not descended into); for every other
dot-path key, the value is resolved by walking the path through the
document, descending into the first element when an array is encountered,
and a filter entry is added only when that walk ends at a non-empty string
value.  (`Nodup` reflects that the produced filter keys are distinct, as they
are whenever the uniqueness keys are distinct and do not collide with the
expanded target paths; the Go code stores them in a map.) -/
theorem buildFilter_construction (t : String) (U : List String)
    (pm : List (String × Json))
    (hnodup : (((U.map (keyContribution pm)).flatten).map Prod.fst).Nodup) :
    buildFilter t U pm =
      { templateName := t, parameters := (U.map (keyContribution pm)).flatten } ∧
    (∀ fields, lookupField pm "target" = some (.obj fields) →
      keyContribution pm "target" = fields.filterMap (fun kv =>
        match kv.2 with
        | Json.str s => some ("target." ++ kv.1, s)
        | _ => none)) ∧
    (∀ key, (key == "target") = false →
      keyContribution pm key =
        match getValueByPath pm key with
        | some v => if v ≠ "" then [(key, v)] else []
        | none => []) := by
  refine ⟨?_, ?_, ?_⟩
  · unfold buildFilter
    rw [buildFilter_foldl]
    simp only [RuleFilter.mk.injEq, true_and]
    exact (foldl_insertEntry_eq_append _ [] (by simp) hnodup).trans (by simp)
  · intro fields hf
    simp [keyContribution, hf]
  · intro key hkey
    simp [keyContribution, hkey]

/-- Witness for C3 (amended): the default uniqueness keys on a concrete
document produce the expected two-entry filter. -/
theorem buildFilter_construction_witness :
    buildFilter "k8s" ["target", "rules.rule_type"]
        [("target", .obj [("namespace", .str "ns1")]),
         ("rules", .arr [.obj [("rule_type", .str "cpu")]])] =
      { templateName := "k8s"
        parameters := [("target.namespace", "ns1"), ("rules.rule_type", "cpu")] } := by
  have h := buildFilter_construction "k8s" ["target", "rules.rule_type"]
    [("target", .obj [("namespace", .str "ns1")]),
     ("rules", .arr [.obj [("rule_type", .str "cpu")]])] (by decide)
  rw [h.1]
  decide

/-- C9.  For every uniqueness key other than the literal `"target"`, if the
dot-path walk over the parameter document ends at a value that is not a JSON
string or ends at the empty string, the filter-construction shared by
`PlanRuleCreation` and `PlanRuleUpdate` silently omits that key from the
search filter instead of failing; consequently two candidate submissions
that differ only in such a non-string field produce identical search
filters. -/
theorem nonString_keys_omitted :
    (∀ pm key, (key == "target") = false →
      (getValueByPath pm key = none ∨ getValueByPath pm key = some "") →
      keyContribution pm key = []) ∧
    (∀ t U pm1 pm2,
      (∀ key ∈ U, keyContribution pm1 key = keyContribution pm2 key ∨
        ((key == "target") = false ∧
          (getValueByPath pm1 key = none ∨ getValueByPath pm1 key = some "") ∧
          (getValueByPath pm2 key = none ∨ getValueByPath pm2 key = some ""))) →
      buildFilter t U pm1 = buildFilter t U pm2) := by
  have homit : ∀ pm key, (key == "target") = false →
      (getValueByPath pm key = none ∨ getValueByPath pm key = some "") →
      keyContribution pm key = [] := by
    intro pm key hk h
    rcases h with h | h <;> simp [keyContribution, hk, h]
  refine ⟨homit, ?_⟩
  intro t U pm1 pm2 hcong
  have hpt : ∀ key ∈ U, keyContribution pm1 key = keyContribution pm2 key := by
    intro key hkU
    rcases hcong key hkU with h | ⟨hk, h1, h2⟩
    · exact h
    · rw [homit pm1 key hk h1, homit pm2 key hk h2]
  have hmap : U.map (keyContribution pm1) = U.map (keyContribution pm2) :=
    List.map_congr_left hpt
  unfold buildFilter
  rw [buildFilter_foldl, buildFilter_foldl, hmap]

/-- Witness for C9: two documents that differ only in the number stored at
`common.count` produce identical (here: empty) search filters. -/
theorem nonString_keys_omitted_witness :
    buildFilter "t" ["common.count"] [("common", .obj [("count", .num 5)])] =
      buildFilter "t" ["common.count"] [("common", .obj [("count", .num 7)])] ∧
    buildFilter "t" ["common.count"] [("common", .obj [("count", .num 5)])] =
      { templateName := "t", parameters := [] } := by
  refine ⟨?_, by decide⟩
  refine nonString_keys_omitted.2 "t" ["common.count"] _ _ ?_
  intro key hkU
  have hk : key = "common.count" := by simpa using hkU
  subst hk
  exact Or.inr ⟨by decide, Or.inl (by decide), Or.inl (by decide)⟩

/-! ### Aggregator (C6, C10) -/

/-- Whether an `Except` computation succeeded. -/
def exceptIsOk : Except ε α → Bool
  | .ok _ => true
  | .error _ => false

theorem collectGroups_foldl_filter (env : ServiceEnv) (rules : List Rule)
    (acc : List (String × List String)) :
    rules.foldl (fun gs r =>
        match GenerateRule env r.templateName r.parameters with
        | .ok content => appendGroup gs r.templateName content
        | .error _ => gs) acc =
      (rules.filter (fun r => exceptIsOk (GenerateRule env r.templateName r.parameters))).foldl
        (fun gs r =>
          match GenerateRule env r.templateName r.parameters with
          | .ok content => appendGroup gs r.templateName content
          | .error _ => gs) acc := by
  induction rules generalizing acc with
  | nil => rfl
  | cons r rest ih =>
    cases hg : GenerateRule env r.templateName r.parameters with
    | ok content => simp [List.filter_cons, exceptIsOk, hg, List.foldl_cons, ih]
    | error e => simp [List.filter_cons, exceptIsOk, hg, List.foldl_cons, ih]

/-- C6.  For every list of persisted rule records, `GenerateVMAlertConfig`
renders each record and, when any single record fails to render, skips that
record and still produces the groups built from all records that render
successfully, returning no error; a per-record render failure never aborts
generation of the whole aggregate feed. -/
theorem generateVMAlertConfig_best_effort :
    (∀ env rules, GenerateVMAlertConfig env rules =
      .ok ("groups:\n" ++ (collectGroups env rules).foldl
        (fun buf g => buf ++ renderGroup g.1 g.2) "")) ∧
    (∀ env rules, collectGroups env rules =
      collectGroups env
        (rules.filter (fun r => exceptIsOk (GenerateRule env r.templateName r.parameters)))) := by
  refine ⟨fun env rules => rfl, ?_⟩
  intro env rules
  unfold collectGroups
  exact collectGroups_foldl_filter env rules []

/-- Plain concatenation of a list of strings (spec-side description of the
buffer writes). -/
def joinStrings : List String → String
  | [] => ""
  | s :: rest => s ++ joinStrings rest

theorem indentRuleBody_foldl (lines : List String) (buf : String) :
    lines.foldl (fun b line => if isBlank line then b else b ++ "      " ++ line ++ "\n") buf =
      buf ++ joinStrings ((lines.filter (fun l => !(isBlank l))).map
        (fun l => "      " ++ l ++ "\n")) := by
  induction lines generalizing buf with
  | nil => simp [joinStrings, String.append_empty]
  | cons line rest ih =>
    rw [List.foldl_cons]
    by_cases hb : isBlank line
    · rw [if_pos hb, ih]
      simp [List.filter_cons, hb]
    · rw [if_neg hb, ih]
      simp [List.filter_cons, hb, joinStrings, String.append_assoc]

theorem renderGroup_foldl (contents : List String) (buf : String) :
    contents.foldl (fun b c => b ++ indentRuleBody c) buf =
      buf ++ joinStrings (contents.map indentRuleBody) := by
  induction contents generalizing buf with
  | nil => simp [joinStrings, String.append_empty]
  | cons c rest ih =>
    simp [List.foldl_cons, joinStrings, ih, String.append_assoc]

/-- C10.  For every successfully rendered rule body, `GenerateVMAlertConfig`
does not embed the body verbatim in the aggregate document: every line of
the body consisting only of whitespace is dropped, and every remaining line
is prefixed with exactly six spaces before being appended to its
template-name group; on an empty rule list the output is exactly
`"groups:\n"` with no error. -/
theorem generateVMAlertConfig_indentation :
    (∀ content, indentRuleBody content =
      joinStrings (((splitLines content).filter (fun l => !(isBlank l))).map
        (fun l => "      " ++ l ++ "\n"))) ∧
    (∀ name contents, renderGroup name contents =
      "  - name: " ++ name ++ "\n" ++ "    rules:\n" ++
        joinStrings (contents.map indentRuleBody)) ∧
    (∀ env, GenerateVMAlertConfig env [] = .ok "groups:\n") := by
  refine ⟨?_, ?_, fun env => rfl⟩
  · intro content
    unfold indentRuleBody
    rw [indentRuleBody_foldl]
    rfl
  · intro name contents
    unfold renderGroup
    rw [renderGroup_foldl]
    rw [String.empty_append]

/-! ### Pipeline execution (C5, C7) -/

theorem Execute_append (runners : List (String × StepRunner))
    (ds : Option DatasourceConfig) (pre post : List PipelineStep) (rp : Json) :
    Execute runners ds (pre ++ post) rp =
      match Execute runners ds pre rp with
      | .ok _ => Execute runners ds post rp
      | .error e => .error e := by
  induction pre with
  | nil => simp [Execute]
  | cons step rest ih =>
    simp only [List.cons_append, Execute]
    by_cases hc : conditionPasses step rp
    · simp only [if_pos hc]
      cases runStep runners ds rp step <;> simp [ih]
    · simp [if_neg hc, ih]

/-- C7.  For every pipeline step whose condition is absent or satisfied, if
the step's type has no registered runner the whole `Execute` call fails with
an explicit "unknown step type" error naming the type; and when a runner
exists and fails, `Execute` aborts with an error attributed to the step's
name, leaving later steps unexecuted (the conclusion does not depend on the
steps after the failing one). -/
theorem execute_unknown_type_and_step_failure (runners : List (String × StepRunner))
    (ds : Option DatasourceConfig) (rp : Json) (pre : List PipelineStep)
    (step : PipelineStep) (post : List PipelineStep)
    (hpre : Execute runners ds pre rp = .ok ())
    (hcond : conditionPasses step rp = true) :
    (findRunner runners step.type = none →
      Execute runners ds (pre ++ step :: post) rp =
        .error ("unknown pipeline step type: " ++ step.type)) ∧
    (∀ f e, findRunner runners step.type = some f →
      f ds rp step.parameters = .error e →
      Execute runners ds (pre ++ step :: post) rp =
        .error ("pipeline step \x27" ++ step.name ++ "\x27 failed: " ++ e)) := by
  constructor
  · intro hnone
    rw [Execute_append, hpre]
    simp [Execute, hcond, runStep, hnone]
  · intro f e hf he
    rw [Execute_append, hpre]
    simp [Execute, hcond, runStep, hf, he]

/-- A runner that always fails; used to instantiate C7 concretely. -/
def failingRunner : StepRunner := fun _ _ _ => .error "boom"

def stepUnknown : PipelineStep :=
  { name := "s1", type := "mystery", condition := none, parameters := .null }

def stepFailing : PipelineStep :=
  { name := "s2", type := "dummy", condition := none, parameters := .null }

/-- Witness for C7: an unknown step type fails the whole call naming the
type, and a failing runner aborts with a step-attributed error, in both
cases regardless of the steps that follow. -/
theorem execute_unknown_type_and_step_failure_witness :
    Execute [] none [stepUnknown, stepFailing] (.obj []) =
      .error ("unknown pipeline step type: mystery") ∧
    Execute [("dummy", failingRunner)] none [stepFailing, stepUnknown] (.obj []) =
      .error ("pipeline step \x27s2\x27 failed: boom") := by
  constructor
  · have h := execute_unknown_type_and_step_failure [] none (.obj [])
      [] stepUnknown [stepFailing] rfl rfl
    exact h.1 rfl
  · have h := execute_unknown_type_and_step_failure [("dummy", failingRunner)] none (.obj [])
      [] stepFailing [stepUnknown] rfl rfl
    exact h.2 failingRunner "boom" rfl rfl

/-- The condition evaluator as claim C5 reads it: extract the named property
and, supporting one level of array-descent, inspect the first element when
the extracted node is a list, then compare by the typed value. -/
def claimEvaluateCondition (condition : PipelineCondition) (ruleParams : Json) : Bool :=
  match ruleParams with
  | .obj params =>
    match lookupField params condition.property with
    | none => false
    | some val0 =>
      let val := match val0 with
        | .arr (x :: _) => x
        | other => other
      match condition.stringValue with
      | some s => (match val with | .str sv => sv == s | _ => false)
      | none =>
        match condition.boolValue with
        | some b => (match val with | .bool bv => bv == b | _ => false)
        | none =>
          match condition.numberValue with
          | some n => (match val with | .num nv => nv == n | _ => false)
          | none => false
  | _ => false

/-- Counterexample to C5 as stated: with condition
`{property: "rule_type", string_value: "cpu"}` and parameters
`{"rule_type": ["cpu"]}`, the claim's array-descent evaluation succeeds, so
the step should execute — and with no registered runner for its type the
call should fail with an "unknown step type" error; the code's
`evaluateCondition` performs no array descent, the comparison fails against
the list value, and `Execute` skips the step and returns ok. -/
theorem evaluateCondition_no_descent_counterexample :
    claimEvaluateCondition ⟨"rule_type", some "cpu", none, none⟩
        (.obj [("rule_type", .arr [.str "cpu"])]) = true ∧
    evaluateCondition ⟨"rule_type", some "cpu", none, none⟩
        (.obj [("rule_type", .arr [.str "cpu"])]) = false ∧
    Execute [] none
        [{ name := "check", type := "validate_metric_exists",
           condition := some ⟨"rule_type", some "cpu", none, none⟩, parameters := .null }]
        (.obj [("rule_type", .arr [.str "cpu"])]) = .ok () :=
  ⟨rfl, rfl, rfl⟩

/-- A condition as decoded from schema JSON sets at most one of the three
typed values. -/
def wellFormedCondition (c : PipelineCondition) : Prop :=
  (c.stringValue.isSome → c.boolValue = none ∧ c.numberValue = none) ∧
  (c.boolValue.isSome → c.numberValue = none)

/-- The amended claim's evaluator: the named property is looked up directly
in the top-level parameter document (no array descent) and compared by typed
equality on string, boolean, or number. -/
def typedEvalSpec (condition : PipelineCondition) (ruleParams : Json) : Bool :=
  match ruleParams with
  | .obj params =>
    match lookupField params condition.property with
    | some (.str sv) =>
      (match condition.stringValue with | some s => sv == s | none => false)
    | some (.bool bv) =>
      (match condition.boolValue with | some b => bv == b | none => false)
    | some (.num nv) =>
      (match condition.numberValue with | some n => nv == n | none => false)
    | _ => false
  | _ => false

/-- C5 (amended).  For every pipeline step carrying a condition (with at most
one typed value set), the processor extracts the named property directly from
the top-level parameter document — with no array descent, so a list-valued
property never matches — and compares it by typed equality on string,
boolean, or number; the step executes when the comparison succeeds, and is
skipped without error when the property is absent or the comparison fails; a
step with no condition always executes. -/
theorem evaluateCondition_typed_no_descent :
    (∀ c rp, wellFormedCondition c → evaluateCondition c rp = typedEvalSpec c rp) ∧
    (∀ runners ds step rest rp, conditionPasses step rp = false →
      Execute runners ds (step :: rest) rp = Execute runners ds rest rp) ∧
    (∀ runners ds step rest rp, conditionPasses step rp = true →
      Execute runners ds (step :: rest) rp =
        match runStep runners ds rp step with
        | .ok _ => Execute runners ds rest rp
        | .error e => Except.error e) ∧
    (∀ (step : PipelineStep) rp, step.condition = none → conditionPasses step rp = true) := by
  refine ⟨?_, ?_, ?_, ?_⟩
  · intro c rp hwf
    obtain ⟨c1, c2⟩ := hwf
    cases rp <;> try rfl
    case obj params =>
    cases hl : lookupField params c.property with
    | none => simp [evaluateCondition, typedEvalSpec, hl]
    | some val =>
      cases hs : c.stringValue <;> cases hb : c.boolValue <;> cases hn : c.numberValue <;>
        cases val <;> simp_all [evaluateCondition, typedEvalSpec]
  · intro runners ds step rest rp hc
    simp [Execute, hc]
  · intro runners ds step rest rp hc
    simp only [Execute, if_pos hc]
    cases runStep runners ds rp step <;> simp
  · intro step rp hc
    simp [conditionPasses, hc]

/-- Witness for C5 (amended): the spec example — condition value "cpu"
against `{"rule_type": "cpu"}` executes, against `{"rule_type": "ram"}` is
skipped. -/
theorem evaluateCondition_typed_no_descent_witness :
    evaluateCondition ⟨"rule_type", some "cpu", none, none⟩
        (.obj [("rule_type", .str "cpu")]) =
      typedEvalSpec ⟨"rule_type", some "cpu", none, none⟩
        (.obj [("rule_type", .str "cpu")]) ∧
    evaluateCondition ⟨"rule_type", some "cpu", none, none⟩
        (.obj [("rule_type", .str "cpu")]) = true ∧
    evaluateCondition ⟨"rule_type", some "cpu", none, none⟩
        (.obj [("rule_type", .str "ram")]) = false := by
  refine ⟨?_, rfl, rfl⟩
  exact evaluateCondition_typed_no_descent.1 _ _
    ⟨fun _ => ⟨rfl, rfl⟩, fun _ => rfl⟩

/-! ### Caching template provider (C8) -/

theorem mapFind_insertEntry_self (m : List (String × String)) (k v : String) :
    mapFind (insertEntry m k v) k = some v := by
  induction m with
  | nil => simp [insertEntry, mapFind, List.find?]
  | cons kv rest ih =>
    obtain ⟨k0, v0⟩ := kv
    by_cases hk : k0 = k
    · subst hk
      simp [insertEntry, mapFind, List.find?]
    · have hb : (k0 == k) = false := beq_eq_false_iff_ne.mpr hk
      simpa [insertEntry, hb, mapFind, List.find?] using ih

theorem mapFind_mapErase_self (m : List (String × String)) (k : String) :
    mapFind (mapErase m k) k = none := by
  induction m with
  | nil => rfl
  | cons kv rest ih =>
    obtain ⟨k0, v0⟩ := kv
    by_cases hk : k0 = k
    · subst hk
      simpa [mapErase, List.filter_cons] using ih
    · have hb : (k0 == k) = false := beq_eq_false_iff_ne.mpr hk
      simpa [mapErase, List.filter_cons, bne, hb, mapFind, List.find?] using ih

/-- C8.  In any sequential run of the caching template provider, after
`CreateSchema(name, v2)` succeeds following an earlier `GetSchema(name)`
that cached v1, the next `GetSchema(name)` call returns v2: every create or
delete for a name invalidates that name's cache entry before the operation
returns, so a subsequent read observes the fresh value from the underlying
store. -/
theorem cache_invalidation_coherence (s0 : ProviderState) (name v1 v2 : String)
    (_hget : (cachedGetSchema s0 name).1 = .ok v1) :
    (cachedGetSchema (cachedCreateSchema (cachedGetSchema s0 name).2 name v2) name).1 =
      .ok v2 ∧
    (∀ s n c, mapFind (cachedCreateSchema s n c).cache n = none) ∧
    (∀ s n, mapFind (cachedDeleteSchema s n).cache n = none) := by
  refine ⟨?_, ?_, ?_⟩
  · simp [cachedGetSchema, cachedCreateSchema, invalidateSchema, mapSet,
      mapFind_mapErase_self, mapFind_insertEntry_self]
  · intro s n c
    simp [cachedCreateSchema, invalidateSchema, mapFind_mapErase_self]
  · intro s n
    simp [cachedDeleteSchema, invalidateSchema, mapFind_mapErase_self]

/-- Witness for C8: a concrete store holding v1, read (and cached), then
overwritten with v2; the next read returns v2. -/
theorem cache_invalidation_coherence_witness :
    (cachedGetSchema
        (cachedCreateSchema (cachedGetSchema ⟨[("n", "v1")], []⟩ "n").2 "n" "v2") "n").1 =
      .ok "v2" :=
  (cache_invalidation_coherence ⟨[("n", "v1")], []⟩ "n" "v1" "v2" rfl).1

end Rulemanager
